import Mathlib

/-!
# Protocol state machine of the BLE firmware updater (`src/fwupd.cpp`)

The class `FirmwareUpdater` is embedded as a record of its member variables.
Every slot is a function from the record to the updated record together with
the list of effects it performed, in program order: text sent to `std::cout`,
characteristic writes, signal connections, the disconnect request and the
`finished` signal.

Machine integers: `data_size` and `data_done` are `uint32_t`; they are natural
numbers here and every arithmetic operation on them is reduced modulo `2^32`.
Result codes are `int`.
-/

namespace Fwupd

/-- Byte strings (`QByteArray`, `char` arrays): lists of characters. -/
abbrev QByteArray := List Char

/-- The macro `TX_BUF_SIZE`. -/
def TX_BUF_SIZE : Nat := 512

/-- Number of values of a `uint32_t`. -/
def UINT32_MOD : Nat := 4294967296

/-- The macro `CMD_FMT_RST`. -/
def CMD_FMT_RST : QByteArray := "FW+RST!".toList

/-- The macro `CMD_FMT_RAM`. -/
def CMD_FMT_RAM : QByteArray := "FW+RAM?".toList

/-- The macro `CMD_FMT_VER`. -/
def CMD_FMT_VER : QByteArray := "FW+VER?".toList

/-- The line terminator written after every command format. -/
def CRLF : QByteArray := "\r\n".toList

/-- The macro `CMD_FMT_UPD`, `"FW+UPD:%u"`, applied to its argument: `%u` prints
the unsigned value in decimal. -/
def CMD_FMT_UPD (data_size : Nat) : QByteArray :=
  "FW+UPD:".toList ++ (Nat.repr data_size).toList

/-- The enumeration `cmd_idx`. -/
inductive cmd_idx where
  | CMD_IDX_UPD
  | CMD_IDX_RST
  | CMD_IDX_RAM
  | CMD_IDX_VER
  deriving DecidableEq, Repr

/-- Modelled from the spec: the header `fwupd.h` that declares the values of
`rw_state` is not among the sources. The source uses the two constants
`RW_NONE` and `RW_WRITE`; the spec calls them the transfer states `Idle` and
`Sending`. -/
inductive RwState where
  | RW_NONE
  | RW_WRITE
  deriving DecidableEq, Repr

/-- The result codes named in `fwupd.cpp`. Their values are declared in the
header `fwupd.h`, which is not among the sources, so they are parameters of
the embedding. `NONE` is the value `err_code` holds while no result has been
recorded. -/
structure Consts where
  NONE : Int
  OK : Int
  ERR_ARG : Int
  ERR_FILE : Int
  ERR_DISCOVR : Int
  ERR_CONTROL : Int
  ERR_SERVICE : Int
  deriving DecidableEq, Repr

/-- Modelled from the spec: the values of the result codes are declared in the
missing header. The spec gives `0` for success and nonzero, pairwise distinct
codes for bad arguments, file-open failure, discovery failure, control failure
and service failure; it gives no value for the pending marker `NONE`, which is
taken here distinct from all of them. Used only to evaluate the code at
concrete inputs. -/
def specConsts : Consts where
  NONE := 6
  OK := 0
  ERR_ARG := 1
  ERR_FILE := 2
  ERR_DISCOVR := 3
  ERR_CONTROL := 4
  ERR_SERVICE := 5

/-- The type `rsp_fmt_t`. -/
structure rsp_fmt_t where
  flag : Bool
  fmt : QByteArray
  deriving DecidableEq, Repr

/-- The table `rsp_fmt`. -/
def rsp_fmt : List rsp_fmt_t :=
  [ { flag := true,  fmt := "OK\r\n".toList },
    { flag := true,  fmt := "DONE\r\n".toList },
    { flag := false, fmt := "FAIL\r\n".toList },
    { flag := false, fmt := "ERROR\r\n".toList } ]

/-- The C string stored in a byte array: the bytes before the first NUL. -/
def cstr (b : QByteArray) : QByteArray :=
  b.takeWhile (fun c => c.toNat != 0)

/-- The library function `strlen`. -/
def strlen (b : QByteArray) : Nat :=
  (cstr b).length

/-- The test `strncmp(a, b, n) == 0`: the two C strings agree on their first
`n` characters, the comparison ending at a NUL. -/
def strncmp_eq (a b : QByteArray) (n : Nat) : Bool :=
  (cstr a).take n == (cstr b).take n

/-- The method `QByteArray::contains`: the pattern occurs somewhere in the array. -/
def contains : QByteArray → QByteArray → Bool
  | [], pat => pat.isEmpty
  | c :: cs, pat => pat.isPrefixOf (c :: cs) || contains cs pat

/-- The object `QFile` behind `data_fd`: the bytes of the image, the read
position and whether the file is open. -/
structure QFile where
  bytes : QByteArray
  pos : Nat
  isOpen : Bool
  deriving DecidableEq, Repr

/-- The method `QFile::read`: up to `maxlen` bytes from the read position, which
advances by the number of bytes returned. A closed file returns nothing. -/
def QFile.read (f : QFile) (maxlen : Nat) : QFile × QByteArray :=
  if f.isOpen then
    let buff := (f.bytes.drop f.pos).take maxlen
    ({ f with pos := f.pos + buff.length }, buff)
  else
    (f, [])

/-- The method `QFile::close`. -/
def QFile.close (f : QFile) : QFile :=
  { f with pos := 0, isOpen := false }

/-- The write modes of `QLowEnergyService::writeCharacteristic`. -/
inductive WriteMode where
  | WriteWithResponse
  | WriteWithoutResponse
  deriving DecidableEq, Repr

/-- The effects a slot performs on its collaborators. -/
inductive Action where
  /-- Text sent to `std::cout`. -/
  | cout (text : QByteArray)
  /-- A call of `m_service->writeCharacteristic`. -/
  | writeCharacteristic (value : QByteArray) (mode : WriteMode)
  /-- The slot `sendData` is connected to the signal `characteristicWritten`. -/
  | connectWritten
  /-- The call `disconnect(m_service, SIGNAL(characteristicWritten(...)))`. -/
  | disconnectWritten
  /-- A call of `m_control->disconnectFromDevice`. -/
  | disconnectFromDevice
  /-- The signal `finished(err)`. -/
  | finished (err : Int)
  /-- The calls that create the discovery agent for an address and start it. -/
  | discoveryStart (address : String)
  deriving DecidableEq, Repr

/-- The member variables of `FirmwareUpdater` that the protocol reads or writes.
`m_control` records whether the controller pointer is non-null. -/
structure FirmwareUpdater where
  m_arg : List String
  m_cmd_idx : cmd_idx
  m_cmd_str : QByteArray
  m_cmd_sent : Bool
  rw_state : RwState
  err_code : Int
  data_size : Nat
  data_done : Nat
  data_fd : QFile
  m_control : Bool
  deriving DecidableEq, Repr

open cmd_idx RwState WriteMode

/-- The line `std::endl` writes. -/
def endl : QByteArray := "\n".toList

/-- The method `FirmwareUpdater::stop`. -/
def stop (K : Consts) (err : Int) (s : FirmwareUpdater) : FirmwareUpdater × List Action :=
  if s.err_code = K.NONE then
    ({ s with err_code := err },
      (if s.rw_state ≠ RW_NONE then [Action.cout endl] else [])
      ++ (if err = K.ERR_DISCOVR then
            [Action.cout (">? ERROR".toList ++ endl)]
          else if err = K.ERR_CONTROL then
            (if s.m_cmd_idx = CMD_IDX_RST ∧ s.m_cmd_sent = true then
              [Action.cout (">! OK".toList ++ endl)]
            else
              [Action.cout (">! ERROR".toList ++ endl)])
          else if err = K.ERR_SERVICE then
            [Action.cout (">+ ERROR".toList ++ endl)]
          else [])
      ++ (if s.m_control then [Action.disconnectFromDevice] else [])
      ++ [Action.finished err])
  else
    (s, [])

/-- The percentage `data_done * 100 / data_size` of `sendData`, in `uint32_t`
arithmetic: the product wraps modulo `2^32` before the division. -/
def progress (data_done data_size : Nat) : Nat :=
  (data_done * 100 % UINT32_MOD) / data_size

/-- The method `FirmwareUpdater::sendData`. The division is reached only when
`data_size` differs from `data_done`; where `data_size` is 0 the C++ quotient
is undefined and the embedding yields 0. -/
def sendData (s : FirmwareUpdater) : FirmwareUpdater × List Action :=
  let data_remain := (s.data_size + UINT32_MOD - s.data_done) % UINT32_MOD
  let read_length := if data_remain ≥ TX_BUF_SIZE then TX_BUF_SIZE else data_remain
  if data_remain = 0 then
    ({ s with data_fd := s.data_fd.close },
      [Action.cout ">> SENT:100%\r".toList, Action.disconnectWritten])
  else
    let rd := s.data_fd.read read_length
    ({ s with data_fd := rd.1, data_done := (s.data_done + read_length) % UINT32_MOD },
      [Action.cout (">> SENT:".toList ++ (Nat.repr (progress s.data_done s.data_size)).toList
          ++ "%\r".toList),
       Action.writeCharacteristic rd.2 WriteWithResponse])

/-- The method `FirmwareUpdater::sendCommand`. -/
def sendCommand (s : FirmwareUpdater) : FirmwareUpdater × List Action :=
  ({ s with m_cmd_sent := true },
    [Action.cout ("=> ".toList ++ cstr s.m_cmd_str),
     Action.writeCharacteristic (cstr s.m_cmd_str) WriteWithoutResponse])

/-- The loop of `processData` over the table: the index and the entry of the
first format, from position `i` on, that `strncmp` finds at the start of the
buffer. -/
def rspScan (recv_buff : QByteArray) : List rsp_fmt_t → Nat → Option (Nat × rsp_fmt_t)
  | [], _ => none
  | e :: rest, i =>
    if strncmp_eq recv_buff e.fmt (strlen e.fmt) then some (i, e)
    else rspScan recv_buff rest (i + 1)

/-- Modelled from the spec: the capacity of `m_cmd_str` is declared in the
missing header; the spec states that every command fits the buffer, so
`snprintf` stores the whole formatted text. -/
def snprintf (text : QByteArray) : QByteArray := text

/-- The echo of a buffer that matched a table entry: a line break when a
transfer is in progress, then the buffer after `<= `. -/
def echo (value : QByteArray) (s : FirmwareUpdater) : List Action :=
  (if s.rw_state ≠ RW_NONE then [Action.cout endl] else [])
    ++ [Action.cout ("<= ".toList ++ cstr value)]

/-- The method `FirmwareUpdater::processData`. -/
def processData (K : Consts) (value : QByteArray) (s : FirmwareUpdater) :
    FirmwareUpdater × List Action :=
  if !contains value CRLF then
    (s, [])
  else
    match rspScan value rsp_fmt 0 with
    | some (_, e) =>
      if e.flag = true then
        if s.m_cmd_idx = CMD_IDX_UPD then
          if s.rw_state = RW_NONE then
            let r := sendData { s with rw_state := RW_WRITE }
            (r.1, echo value s ++ [Action.connectWritten] ++ r.2)
          else
            let r := sendCommand
              { s with rw_state := RW_NONE, m_cmd_idx := CMD_IDX_RST,
                       m_cmd_str := snprintf (CMD_FMT_RST ++ CRLF) }
            (r.1, echo value s ++ r.2)
        else
          (s, echo value s)
      else
        let r := stop K K.OK { s with rw_state := RW_NONE }
        (r.1, echo value s ++ r.2)
    | none =>
      if s.m_cmd_idx = CMD_IDX_RAM then
        let r := sendCommand
          { s with m_cmd_idx := CMD_IDX_VER, m_cmd_str := snprintf (CMD_FMT_VER ++ CRLF) }
        (r.1, [Action.cout ("<= ".toList ++ cstr value)] ++ r.2)
      else
        let r := stop K K.OK s
        (r.1, [Action.cout ("<= ".toList ++ cstr value)] ++ r.2)

/-- The method `FirmwareUpdater::errorDiscovery`. -/
def errorDiscovery (K : Consts) (s : FirmwareUpdater) : FirmwareUpdater × List Action :=
  stop K K.ERR_DISCOVR s

/-- The method `FirmwareUpdater::errorControl`. -/
def errorControl (K : Consts) (s : FirmwareUpdater) : FirmwareUpdater × List Action :=
  stop K K.ERR_CONTROL s

/-- The method `FirmwareUpdater::errorService`. -/
def errorService (K : Consts) (s : FirmwareUpdater) : FirmwareUpdater × List Action :=
  stop K K.ERR_SERVICE s

/-- The method `FirmwareUpdater::deviceDisconnected`. -/
def deviceDisconnected (K : Consts) (s : FirmwareUpdater) : FirmwareUpdater × List Action :=
  errorControl K s

/-- The method `FirmwareUpdater::printUsage`, which prints the usage of the
program named by `m_arg[0]` and stops with `ERR_ARG`. -/
def printUsage (K : Consts) (s : FirmwareUpdater) : FirmwareUpdater × List Action :=
  let r := stop K K.ERR_ARG s
  (r.1,
    [Action.cout ("Usage:".toList ++ endl),
     Action.cout ("    ".toList ++ (s.m_arg.getD 0 "").toList ++ " BD_ADDR COMMAND".toList
        ++ endl ++ endl),
     Action.cout ("Commands:".toList ++ endl),
     Action.cout ("    get-info                  get device information".toList ++ endl),
     Action.cout ("    update [firmware.bin]     update device firmware".toList ++ endl),
     Action.cout ("    reset                     reset the device".toList ++ endl)]
    ++ r.2)

/-- The method `FirmwareUpdater::start`. The argument `fs` is the file system:
`fs path` is the content of the file when it can be opened for reading. -/
def start (K : Consts) (fs : String → Option QByteArray) (argv : List String)
    (s0 : FirmwareUpdater) : FirmwareUpdater × List Action :=
  let s := { s0 with m_arg := argv }
  let argc := argv.length
  let usage :=
    let r1 := printUsage K s
    let r2 := stop K K.ERR_ARG r1.1
    (r2.1, r1.2 ++ r2.2)
  let discover := fun (t : FirmwareUpdater) (acts : List Action) =>
    (t, acts ++ [Action.discoveryStart (argv.getD 1 "")])
  if argc ≥ 3 then
    let command := argv.getD 2 ""
    if command = "get-info" ∧ argc = 3 then
      discover { s with m_cmd_idx := CMD_IDX_RAM, m_cmd_str := snprintf (CMD_FMT_RAM ++ CRLF) } []
    else if command = "update" ∧ argc = 4 then
      match fs (argv.getD 3 "") with
      | none =>
        let r := stop K K.ERR_FILE { s with data_fd := { bytes := [], pos := 0, isOpen := false } }
        (r.1, [Action.cout ("Could not open file: ".toList ++ (argv.getD 3 "").toList ++ endl)]
          ++ r.2)
      | some image =>
        let size := image.length % UINT32_MOD
        discover
          { s with data_fd := { bytes := image, pos := 0, isOpen := true },
                   data_size := size, data_done := 0,
                   m_cmd_idx := CMD_IDX_UPD,
                   m_cmd_str := snprintf (CMD_FMT_UPD size ++ CRLF) } []
    else if command = "reset" ∧ argc = 3 then
      discover { s with m_cmd_idx := CMD_IDX_RST, m_cmd_str := snprintf (CMD_FMT_RST ++ CRLF) } []
    else
      usage
  else
    usage

/-- The transport events that reach the protocol, each named after the signal
that carries it. -/
inductive Event where
  /-- Signal `descriptorWritten`, connected to `sendCommand`: the notification
  channel is ready. -/
  | descriptorWritten
  /-- Signal `characteristicChanged`, connected to `processData`: a notification. -/
  | characteristicChanged (value : QByteArray)
  /-- Signal `characteristicWritten` delivered to `sendData`: a write
  acknowledgement. -/
  | characteristicWritten
  /-- Signal `error` of the discovery agent. -/
  | discoveryError
  /-- Signal `error` of the controller. -/
  | controlError
  /-- Signal `disconnected` of the controller. -/
  | disconnected
  /-- Signal `error` of the service. -/
  | serviceError
  deriving DecidableEq, Repr

/-- The slot a transport event invokes. The connection of `sendData` to
`characteristicWritten` is not tracked: every write acknowledgement in an event
sequence runs `sendData`, so a statement over all event sequences also covers
the sequences the connections in force would deliver. -/
def step (K : Consts) (e : Event) (s : FirmwareUpdater) : FirmwareUpdater × List Action :=
  match e with
  | Event.descriptorWritten => sendCommand s
  | Event.characteristicChanged value => processData K value s
  | Event.characteristicWritten => sendData s
  | Event.discoveryError => errorDiscovery K s
  | Event.controlError => errorControl K s
  | Event.disconnected => deviceDisconnected K s
  | Event.serviceError => errorService K s

/-- A sequence of events, delivered one after the other: the final state and
all effects in order. -/
def run (K : Consts) : List Event → FirmwareUpdater → FirmwareUpdater × List Action
  | [], s => (s, [])
  | e :: es, s =>
    let r := step K e s
    let r2 := run K es r.1
    (r2.1, r.2 ++ r2.2)

/-- The values written to the characteristic among a list of effects. -/
def writes : List Action → List QByteArray
  | [] => []
  | Action.writeCharacteristic v _ :: rest => v :: writes rest
  | _ :: rest => writes rest

/-- The codes carried by the `finished` signals among a list of effects. -/
def finishes : List Action → List Int
  | [] => []
  | Action.finished c :: rest => c :: finishes rest
  | _ :: rest => finishes rest

/-- The response kinds of the spec. -/
inductive ResponseKind where
  | Ok
  | Done
  | Fail
  | Error
  | Opaque
  deriving DecidableEq, Repr

/-- The classification as the spec words it: the kind of the first of the four
control strings, in table order, that is a prefix of the line, and `Opaque`
when none is. -/
def classifySpec (line : QByteArray) : ResponseKind :=
  if "OK\r\n".toList <+: line then ResponseKind.Ok
  else if "DONE\r\n".toList <+: line then ResponseKind.Done
  else if "FAIL\r\n".toList <+: line then ResponseKind.Fail
  else if "ERROR\r\n".toList <+: line then ResponseKind.Error
  else ResponseKind.Opaque

/-- The response kind the loop of `processData` acts on: the table position of
the entry found, `Opaque` when the loop ends without a match. -/
def classify (recv_buff : QByteArray) : ResponseKind :=
  match rspScan recv_buff rsp_fmt 0 with
  | some (0, _) => ResponseKind.Ok
  | some (1, _) => ResponseKind.Done
  | some (2, _) => ResponseKind.Fail
  | some (3, _) => ResponseKind.Error
  | _ => ResponseKind.Opaque

/-- A session object as `start` finds it, used to evaluate the code at concrete
inputs: no result recorded, no command sent, no transfer, a controller present. -/
def freshSession : FirmwareUpdater where
  m_arg := []
  m_cmd_idx := CMD_IDX_UPD
  m_cmd_str := []
  m_cmd_sent := false
  rw_state := RW_NONE
  err_code := specConsts.NONE
  data_size := 0
  data_done := 0
  data_fd := { bytes := [], pos := 0, isOpen := false }
  m_control := true

/-- A file system holding one image of `n` bytes under the name `fw.bin`. -/
def oneImage (n : Nat) : String → Option QByteArray :=
  fun path => if path = "fw.bin" then some (List.replicate n 'x') else none

/-! ## Auxiliary lemmas -/

theorem writes_append (a b : List Action) : writes (a ++ b) = writes a ++ writes b := by
  induction a with
  | nil => rfl
  | cons x xs ih => cases x <;> simp [writes, ih]

theorem finishes_append (a b : List Action) : finishes (a ++ b) = finishes a ++ finishes b := by
  induction a with
  | nil => rfl
  | cons x xs ih => cases x <;> simp [finishes, ih]

theorem stop_pending (K : Consts) (err : Int) (s : FirmwareUpdater) (h : s.err_code = K.NONE) :
    (stop K err s).1 = { s with err_code := err } ∧ finishes (stop K err s).2 = [err]
      ∧ writes (stop K err s).2 = [] := by
  unfold stop
  rw [if_pos h]
  refine ⟨rfl, ?_, ?_⟩
  · simp only [finishes_append]
    split_ifs <;> simp [finishes]
  · simp only [writes_append]
    split_ifs <;> simp [writes]

theorem stop_done (K : Consts) (err : Int) (s : FirmwareUpdater) (h : s.err_code ≠ K.NONE) :
    stop K err s = (s, []) := by
  unfold stop
  rw [if_neg h]

theorem stop_writes (K : Consts) (err : Int) (s : FirmwareUpdater) :
    writes (stop K err s).2 = [] := by
  by_cases h : s.err_code = K.NONE
  · exact (stop_pending K err s h).2.2
  · rw [stop_done K err s h]; rfl

theorem stop_rw_state (K : Consts) (err : Int) (s : FirmwareUpdater) :
    (stop K err s).1.rw_state = s.rw_state ∧ (stop K err s).1.m_cmd_idx = s.m_cmd_idx
      ∧ (stop K err s).1.data_size = s.data_size ∧ (stop K err s).1.data_done = s.data_done := by
  by_cases h : s.err_code = K.NONE
  · rw [(stop_pending K err s h).1]; simp
  · rw [stop_done K err s h]; simp

theorem cstr_append (fmt t : QByteArray) (h : ∀ c ∈ fmt, c.toNat ≠ 0) :
    cstr (fmt ++ t) = fmt ++ cstr t := by
  induction fmt with
  | nil => rfl
  | cons c cs ih =>
    have hc : c.toNat ≠ 0 := h c (List.mem_cons_self _ _)
    have ih2 := ih (fun d hd => h d (List.mem_cons_of_mem _ hd))
    have hb : (c.toNat != 0) = true := by simpa using hc
    unfold cstr at ih2 ⊢
    rw [List.cons_append, List.takeWhile_cons, if_pos hb, ih2, List.cons_append]

theorem cstr_initial (b : QByteArray) : cstr b <+: b := by
  unfold cstr
  exact List.takeWhile_prefix _

theorem strncmp_eq_iff (v fmt : QByteArray) (h : ∀ c ∈ fmt, c.toNat ≠ 0) :
    strncmp_eq v fmt (strlen fmt) = true ↔ fmt <+: v := by
  have hf : cstr fmt = fmt := by
    have := cstr_append fmt [] h
    simpa [cstr] using this
  unfold strncmp_eq strlen
  rw [hf, List.take_length]
  constructor
  · intro he
    have he2 : List.take fmt.length (cstr v) = fmt := by simpa using he
    rw [← he2]
    exact (List.take_prefix _ _).trans (cstr_initial v)
  · rintro ⟨t, rfl⟩
    rw [cstr_append fmt t h]
    simp

theorem contains_iff (v pat : QByteArray) : contains v pat = true ↔ pat <:+: v := by
  induction v with
  | nil =>
    cases pat <;> simp [contains]
  | cons c cs ih =>
    unfold contains
    rw [Bool.or_eq_true, ih, List.infix_cons_iff]
    simp [List.isPrefixOf_iff_prefix]

theorem rsp_fmt_nonzero : ∀ e ∈ rsp_fmt, ∀ c ∈ e.fmt, c.toNat ≠ 0 := by decide

theorem rspScan_eq (v : QByteArray) :
    rspScan v rsp_fmt 0 =
      if "OK\r\n".toList <+: v then some (0, { flag := true, fmt := "OK\r\n".toList })
      else if "DONE\r\n".toList <+: v then some (1, { flag := true, fmt := "DONE\r\n".toList })
      else if "FAIL\r\n".toList <+: v then some (2, { flag := false, fmt := "FAIL\r\n".toList })
      else if "ERROR\r\n".toList <+: v then some (3, { flag := false, fmt := "ERROR\r\n".toList })
      else none := by
  have h0 := strncmp_eq_iff v "OK\r\n".toList (by decide)
  have h1 := strncmp_eq_iff v "DONE\r\n".toList (by decide)
  have h2 := strncmp_eq_iff v "FAIL\r\n".toList (by decide)
  have h3 := strncmp_eq_iff v "ERROR\r\n".toList (by decide)
  simp only [rsp_fmt, rspScan, h0, h1, h2, h3]

theorem prefix_excl (v : QByteArray) :
    ("FAIL\r\n".toList <+: v → ¬ "OK\r\n".toList <+: v ∧ ¬ "DONE\r\n".toList <+: v)
    ∧ ("ERROR\r\n".toList <+: v → ¬ "OK\r\n".toList <+: v ∧ ¬ "DONE\r\n".toList <+: v
        ∧ ¬ "FAIL\r\n".toList <+: v)
    ∧ ("DONE\r\n".toList <+: v → ¬ "OK\r\n".toList <+: v) := by
  refine ⟨?_, ?_, ?_⟩
  · rintro ⟨t, rfl⟩
    constructor <;> (rintro ⟨u, hu⟩; simp at hu)
  · rintro ⟨t, rfl⟩
    refine ⟨?_, ?_, ?_⟩ <;> (rintro ⟨u, hu⟩; simp at hu)
  · rintro ⟨t, rfl⟩
    rintro ⟨u, hu⟩; simp at hu

theorem contains_of_prefix (v : QByteArray)
    (h : "OK\r\n".toList <+: v ∨ "DONE\r\n".toList <+: v ∨ "FAIL\r\n".toList <+: v
      ∨ "ERROR\r\n".toList <+: v) : contains v CRLF = true := by
  rw [contains_iff]
  have s0 : CRLF <:+ "OK\r\n".toList := ⟨"OK".toList, rfl⟩
  have s1 : CRLF <:+ "DONE\r\n".toList := ⟨"DONE".toList, rfl⟩
  have s2 : CRLF <:+ "FAIL\r\n".toList := ⟨"FAIL".toList, rfl⟩
  have s3 : CRLF <:+ "ERROR\r\n".toList := ⟨"ERROR".toList, rfl⟩
  rcases h with h | h | h | h
  · exact s0.isInfix.trans h.isInfix
  · exact s1.isInfix.trans h.isInfix
  · exact s2.isInfix.trans h.isInfix
  · exact s3.isInfix.trans h.isInfix

theorem echo_silent (v : QByteArray) (s : FirmwareUpdater) :
    writes (echo v s) = [] ∧ finishes (echo v s) = [] := by
  unfold echo
  constructor <;> split_ifs <;> rfl

theorem rspScan_failure (v : QByteArray)
    (h : "FAIL\r\n".toList <+: v ∨ "ERROR\r\n".toList <+: v) :
    ∃ i fmt, rspScan v rsp_fmt 0 = some (i, { flag := false, fmt := fmt }) := by
  have hx := prefix_excl v
  rw [rspScan_eq]
  rcases h with h | h
  · rw [if_neg (hx.1 h).1, if_neg (hx.1 h).2, if_pos h]
    exact ⟨_, _, rfl⟩
  · rw [if_neg (hx.2.1 h).1, if_neg (hx.2.1 h).2.1, if_neg (hx.2.1 h).2.2, if_pos h]
    exact ⟨_, _, rfl⟩

theorem rspScan_success (v : QByteArray)
    (h : "OK\r\n".toList <+: v ∨ "DONE\r\n".toList <+: v) :
    ∃ i fmt, rspScan v rsp_fmt 0 = some (i, { flag := true, fmt := fmt }) := by
  have hx := prefix_excl v
  rw [rspScan_eq]
  rcases h with h | h
  · rw [if_pos h]
    exact ⟨_, _, rfl⟩
  · rw [if_neg (hx.2.2 h), if_pos h]
    exact ⟨_, _, rfl⟩

theorem rspScan_other (v : QByteArray) (h : ∀ e ∈ rsp_fmt, ¬ e.fmt <+: v) :
    rspScan v rsp_fmt 0 = none := by
  have h0 := h ⟨true, "OK\r\n".toList⟩ (by decide)
  have h1 := h ⟨true, "DONE\r\n".toList⟩ (by decide)
  have h2 := h ⟨false, "FAIL\r\n".toList⟩ (by decide)
  have h3 := h ⟨false, "ERROR\r\n".toList⟩ (by decide)
  rw [rspScan_eq, if_neg h0, if_neg h1, if_neg h2, if_neg h3]

theorem processData_no_crlf (K : Consts) (v : QByteArray) (s : FirmwareUpdater)
    (h : contains v CRLF = false) : processData K v s = (s, []) := by
  unfold processData
  simp only [h, Bool.not_false, if_true]

theorem processData_failure (K : Consts) (v : QByteArray) (s : FirmwareUpdater)
    (h : "FAIL\r\n".toList <+: v ∨ "ERROR\r\n".toList <+: v) :
    processData K v s =
      ((stop K K.OK { s with rw_state := RW_NONE }).1,
        echo v s ++ (stop K K.OK { s with rw_state := RW_NONE }).2) := by
  have hc : contains v CRLF = true := contains_of_prefix v (by tauto)
  obtain ⟨i, fmt, hs⟩ := rspScan_failure v h
  unfold processData
  simp only [hc, hs, Bool.not_true, Bool.false_eq_true, if_false]

theorem processData_success (K : Consts) (v : QByteArray) (s : FirmwareUpdater)
    (h : "OK\r\n".toList <+: v ∨ "DONE\r\n".toList <+: v) :
    processData K v s =
      if s.m_cmd_idx = CMD_IDX_UPD then
        if s.rw_state = RW_NONE then
          ((sendData { s with rw_state := RW_WRITE }).1,
            echo v s ++ [Action.connectWritten] ++ (sendData { s with rw_state := RW_WRITE }).2)
        else
          ((sendCommand { s with rw_state := RW_NONE, m_cmd_idx := CMD_IDX_RST, m_cmd_str := snprintf (CMD_FMT_RST ++ CRLF) }).1,
            echo v s ++ (sendCommand { s with rw_state := RW_NONE, m_cmd_idx := CMD_IDX_RST, m_cmd_str := snprintf (CMD_FMT_RST ++ CRLF) }).2)
      else (s, echo v s) := by
  have hc : contains v CRLF = true := contains_of_prefix v (by tauto)
  obtain ⟨i, fmt, hs⟩ := rspScan_success v h
  unfold processData
  simp only [hc, hs, Bool.not_true, Bool.false_eq_true, if_false, if_true]

theorem processData_other (K : Consts) (v : QByteArray) (s : FirmwareUpdater)
    (hc : contains v CRLF = true) (h : ∀ e ∈ rsp_fmt, ¬ e.fmt <+: v) :
    processData K v s =
      if s.m_cmd_idx = CMD_IDX_RAM then
        ((sendCommand { s with m_cmd_idx := CMD_IDX_VER, m_cmd_str := snprintf (CMD_FMT_VER ++ CRLF) }).1,
          [Action.cout ("<= ".toList ++ cstr v)] ++
            (sendCommand { s with m_cmd_idx := CMD_IDX_VER, m_cmd_str := snprintf (CMD_FMT_VER ++ CRLF) }).2)
      else ((stop K K.OK s).1, [Action.cout ("<= ".toList ++ cstr v)] ++ (stop K K.OK s).2) := by
  have hs := rspScan_other v h
  unfold processData
  simp only [hc, hs, Bool.not_true, Bool.false_eq_true, if_false]

theorem buffer_cases (v : QByteArray) :
    contains v CRLF = false
    ∨ ("OK\r\n".toList <+: v ∨ "DONE\r\n".toList <+: v)
    ∨ ("FAIL\r\n".toList <+: v ∨ "ERROR\r\n".toList <+: v)
    ∨ (contains v CRLF = true ∧ ∀ e ∈ rsp_fmt, ¬ e.fmt <+: v) := by
  by_cases h0 : "OK\r\n".toList <+: v
  · exact Or.inr (Or.inl (Or.inl h0))
  by_cases h1 : "DONE\r\n".toList <+: v
  · exact Or.inr (Or.inl (Or.inr h1))
  by_cases h2 : "FAIL\r\n".toList <+: v
  · exact Or.inr (Or.inr (Or.inl (Or.inl h2)))
  by_cases h3 : "ERROR\r\n".toList <+: v
  · exact Or.inr (Or.inr (Or.inl (Or.inr h3)))
  cases hc : contains v CRLF
  · exact Or.inl rfl
  · refine Or.inr (Or.inr (Or.inr ⟨rfl, ?_⟩))
    intro e he
    simp only [rsp_fmt, List.mem_cons, List.mem_singleton, List.not_mem_nil, or_false] at he
    rcases he with rfl | rfl | rfl | rfl <;> assumption

theorem sendData_frame (s : FirmwareUpdater) :
    (sendData s).1.err_code = s.err_code ∧ (sendData s).1.rw_state = s.rw_state
      ∧ (sendData s).1.m_cmd_idx = s.m_cmd_idx ∧ (sendData s).1.data_size = s.data_size
      ∧ finishes (sendData s).2 = [] := by
  unfold sendData
  simp only []
  split_ifs <;> simp [finishes]

theorem sendData_complete (s : FirmwareUpdater) (h : s.data_done = s.data_size) :
    (sendData s).1.data_done = s.data_done ∧ writes (sendData s).2 = [] := by
  have hr : (s.data_size + UINT32_MOD - s.data_done) % UINT32_MOD = 0 := by
    rw [h, Nat.add_sub_cancel_left, Nat.mod_self]
  unfold sendData
  simp only [hr, if_true]
  exact ⟨trivial, rfl⟩

theorem sendCommand_frame (s : FirmwareUpdater) :
    (sendCommand s).1.err_code = s.err_code ∧ (sendCommand s).1.rw_state = s.rw_state
      ∧ (sendCommand s).1.m_cmd_idx = s.m_cmd_idx ∧ (sendCommand s).1.data_size = s.data_size
      ∧ (sendCommand s).1.data_done = s.data_done
      ∧ finishes (sendCommand s).2 = [] ∧ writes (sendCommand s).2 = [cstr s.m_cmd_str] :=
  ⟨rfl, rfl, rfl, rfl, rfl, rfl, rfl⟩

theorem stop_latch (K : Consts) (err : Int) (s : FirmwareUpdater) :
    ((stop K err s).1.err_code = s.err_code ∧ finishes (stop K err s).2 = [])
    ∨ (s.err_code = K.NONE ∧ (stop K err s).1.err_code = err
        ∧ finishes (stop K err s).2 = [err]) := by
  by_cases h : s.err_code = K.NONE
  · right
    have hp := stop_pending K err s h
    exact ⟨h, by rw [hp.1], hp.2.1⟩
  · left
    rw [stop_done K err s h]
    exact ⟨rfl, rfl⟩

theorem processData_latch (K : Consts) (v : QByteArray) (s : FirmwareUpdater) :
    ((processData K v s).1.err_code = s.err_code ∧ finishes (processData K v s).2 = [])
    ∨ (s.err_code = K.NONE ∧ (processData K v s).1.err_code = K.OK
        ∧ finishes (processData K v s).2 = [K.OK]) := by
  rcases buffer_cases v with h | h | h | ⟨hc, h⟩
  · rw [processData_no_crlf K v s h]
    exact Or.inl ⟨rfl, rfl⟩
  · rw [processData_success K v s h]
    left
    split_ifs
    · simp [finishes_append, (echo_silent v s).2, (sendData_frame _).1, (sendData_frame _).2.2.2.2, finishes]
    · simp [finishes_append, (echo_silent v s).2, sendCommand, finishes]
    · exact ⟨rfl, (echo_silent v s).2⟩
  · rw [processData_failure K v s h]
    simp only [finishes_append, (echo_silent v s).2, List.nil_append]
    exact stop_latch K K.OK { s with rw_state := RW_NONE }
  · rw [processData_other K v s hc h]
    split_ifs
    · left
      simp [finishes_append, sendCommand, finishes]
    · simp only [finishes_append, finishes, List.nil_append]
      exact stop_latch K K.OK s

theorem step_latch (K : Consts) (e : Event) (s : FirmwareUpdater) :
    ((step K e s).1.err_code = s.err_code ∧ finishes (step K e s).2 = [])
    ∨ (s.err_code = K.NONE
        ∧ ((step K e s).1.err_code = K.OK ∨ (step K e s).1.err_code = K.ERR_DISCOVR
            ∨ (step K e s).1.err_code = K.ERR_CONTROL ∨ (step K e s).1.err_code = K.ERR_SERVICE)
        ∧ (finishes (step K e s).2).length = 1) := by
  cases e with
  | descriptorWritten => exact Or.inl ⟨rfl, rfl⟩
  | characteristicChanged v =>
    rcases processData_latch K v s with h | ⟨h1, h2, h3⟩
    · exact Or.inl h
    · exact Or.inr ⟨h1, Or.inl h2, by simp [step, h3]⟩
  | characteristicWritten =>
    exact Or.inl ⟨(sendData_frame s).1, (sendData_frame s).2.2.2.2⟩
  | discoveryError =>
    rcases stop_latch K K.ERR_DISCOVR s with h | ⟨h1, h2, h3⟩
    · exact Or.inl h
    · exact Or.inr ⟨h1, Or.inr (Or.inl h2), by simp [step, errorDiscovery, h3]⟩
  | controlError =>
    rcases stop_latch K K.ERR_CONTROL s with h | ⟨h1, h2, h3⟩
    · exact Or.inl h
    · exact Or.inr ⟨h1, Or.inr (Or.inr (Or.inl h2)), by simp [step, errorControl, h3]⟩
  | disconnected =>
    rcases stop_latch K K.ERR_CONTROL s with h | ⟨h1, h2, h3⟩
    · exact Or.inl h
    · exact Or.inr ⟨h1, Or.inr (Or.inr (Or.inl h2)),
        by simp [step, deviceDisconnected, errorControl, h3]⟩
  | serviceError =>
    rcases stop_latch K K.ERR_SERVICE s with h | ⟨h1, h2, h3⟩
    · exact Or.inl h
    · exact Or.inr ⟨h1, Or.inr (Or.inr (Or.inr h2)), by simp [step, errorService, h3]⟩

theorem step_done (K : Consts) (e : Event) (s : FirmwareUpdater) (h : s.err_code ≠ K.NONE) :
    (step K e s).1.err_code = s.err_code ∧ finishes (step K e s).2 = [] := by
  rcases step_latch K e s with h1 | ⟨h1, _⟩
  · exact h1
  · exact absurd h1 h

theorem run_done (K : Consts) (es : List Event) :
    ∀ s : FirmwareUpdater, s.err_code ≠ K.NONE →
      (run K es s).1.err_code = s.err_code ∧ finishes (run K es s).2 = [] := by
  induction es with
  | nil => intro s _; exact ⟨rfl, rfl⟩
  | cons e es ih =>
    intro s h
    have h1 := step_done K e s h
    have h2 := ih (step K e s).1 (by rw [h1.1]; exact h)
    simp only [run, finishes_append, h1.2, h2.2, List.append_nil]
    exact ⟨h2.1.trans h1.1, trivial⟩

theorem run_finishes_le_one (K : Consts)
    (hK : K.OK ≠ K.NONE ∧ K.ERR_DISCOVR ≠ K.NONE ∧ K.ERR_CONTROL ≠ K.NONE
      ∧ K.ERR_SERVICE ≠ K.NONE) (es : List Event) :
    ∀ s : FirmwareUpdater, (finishes (run K es s).2).length ≤ 1 := by
  induction es with
  | nil => intro s; simp [run, finishes]
  | cons e es ih =>
    intro s
    simp only [run, finishes_append, List.length_append]
    rcases step_latch K e s with ⟨_, h2⟩ | ⟨_, h2, h3⟩
    · rw [h2]
      simpa using ih (step K e s).1
    · have hd : (step K e s).1.err_code ≠ K.NONE := by
        rcases h2 with h | h | h | h <;> rw [h]
        · exact hK.1
        · exact hK.2.1
        · exact hK.2.2.1
        · exact hK.2.2.2
      rw [h3, (run_done K es _ hd).2]
      simp

theorem step_quiet (K : Consts) (e : Event) (s : FirmwareUpdater)
    (he : e ≠ Event.descriptorWritten)
    (hcmd : s.m_cmd_idx = CMD_IDX_RST ∨ s.m_cmd_idx = CMD_IDX_VER)
    (hd : s.data_done = s.data_size) (hrw : s.rw_state = RW_NONE) :
    (step K e s).1.m_cmd_idx = s.m_cmd_idx ∧ (step K e s).1.data_done = (step K e s).1.data_size
      ∧ (step K e s).1.rw_state = RW_NONE ∧ writes (step K e s).2 = [] := by
  have hupd : s.m_cmd_idx ≠ CMD_IDX_UPD := by rcases hcmd with h | h <;> simp [h]
  have hram : s.m_cmd_idx ≠ CMD_IDX_RAM := by rcases hcmd with h | h <;> simp [h]
  have hstop : ∀ (err : Int) (t : FirmwareUpdater), t.m_cmd_idx = s.m_cmd_idx →
      t.data_done = t.data_size → t.rw_state = RW_NONE →
      (stop K err t).1.m_cmd_idx = s.m_cmd_idx
        ∧ (stop K err t).1.data_done = (stop K err t).1.data_size
        ∧ (stop K err t).1.rw_state = RW_NONE ∧ writes (stop K err t).2 = [] := by
    intro err t h1 h2 h3
    have hf := stop_rw_state K err t
    exact ⟨hf.2.1.trans h1, by rw [hf.2.2.1, hf.2.2.2, h2], hf.1.trans h3, stop_writes K err t⟩
  cases e with
  | descriptorWritten => exact absurd rfl he
  | characteristicChanged v =>
    simp only [step]
    rcases buffer_cases v with h | h | h | ⟨hc, h⟩
    · rw [processData_no_crlf K v s h]
      exact ⟨rfl, hd, hrw, rfl⟩
    · rw [processData_success K v s h, if_neg hupd]
      exact ⟨rfl, hd, hrw, (echo_silent v s).1⟩
    · rw [processData_failure K v s h]
      simp only [writes_append, (echo_silent v s).1, List.nil_append]
      exact hstop K.OK { s with rw_state := RW_NONE } rfl hd rfl
    · rw [processData_other K v s hc h, if_neg hram]
      simp only [writes_append, writes, List.nil_append]
      exact hstop K.OK s rfl hd hrw
  | characteristicWritten =>
    simp only [step]
    have hf := sendData_frame s
    have hc := sendData_complete s hd
    exact ⟨hf.2.2.1, by rw [hc.1, hf.2.2.2.1, hd], hf.2.1.trans hrw, hc.2⟩
  | discoveryError => exact hstop K.ERR_DISCOVR s rfl hd hrw
  | controlError => exact hstop K.ERR_CONTROL s rfl hd hrw
  | disconnected => exact hstop K.ERR_CONTROL s rfl hd hrw
  | serviceError => exact hstop K.ERR_SERVICE s rfl hd hrw

theorem run_quiet (K : Consts) (es : List Event) :
    ∀ s : FirmwareUpdater, (∀ e ∈ es, e ≠ Event.descriptorWritten) →
      (s.m_cmd_idx = CMD_IDX_RST ∨ s.m_cmd_idx = CMD_IDX_VER) →
      s.data_done = s.data_size → s.rw_state = RW_NONE →
      (run K es s).1.rw_state = RW_NONE ∧ writes (run K es s).2 = [] := by
  induction es with
  | nil => intro s _ _ _ hrw; exact ⟨hrw, rfl⟩
  | cons e es ih =>
    intro s hes hcmd hd hrw
    have h1 := step_quiet K e s (hes e (List.mem_cons_self _ _)) hcmd hd hrw
    have h2 := ih (step K e s).1 (fun x hx => hes x (List.mem_cons_of_mem _ hx))
      (by rw [h1.1]; exact hcmd) h1.2.1 h1.2.2.1
    simp only [run, writes_append, h1.2.2.2, h2.2, List.append_nil]
    exact ⟨h2.1, trivial⟩

theorem contains_of_suffix (v pat : QByteArray) (h : pat <:+ v) : contains v pat = true :=
  (contains_iff v pat).2 h.isInfix

theorem start_getInfo (K : Consts) (fs : String → Option QByteArray) (prog addr : String)
    (s0 : FirmwareUpdater) :
    start K fs [prog, addr, "get-info"] s0 =
      ({ s0 with m_arg := [prog, addr, "get-info"], m_cmd_idx := CMD_IDX_RAM,
                 m_cmd_str := "FW+RAM?\r\n".toList },
        [Action.discoveryStart addr]) := by
  simp [start, snprintf, CMD_FMT_RAM, CRLF]

theorem start_update (K : Consts) (fs : String → Option QByteArray) (prog addr path : String)
    (image : QByteArray) (s0 : FirmwareUpdater) (hfs : fs path = some image) :
    start K fs [prog, addr, "update", path] s0 =
      ({ s0 with m_arg := [prog, addr, "update", path],
                 data_fd := { bytes := image, pos := 0, isOpen := true },
                 data_size := image.length % UINT32_MOD, data_done := 0,
                 m_cmd_idx := CMD_IDX_UPD,
                 m_cmd_str := CMD_FMT_UPD (image.length % UINT32_MOD) ++ CRLF },
        [Action.discoveryStart addr]) := by
  simp [start, snprintf, hfs]

theorem run_append (K : Consts) (es1 es2 : List Event) :
    ∀ s : FirmwareUpdater,
      run K (es1 ++ es2) s =
        ((run K es2 (run K es1 s).1).1, (run K es1 s).2 ++ (run K es2 (run K es1 s).1).2) := by
  induction es1 with
  | nil => intro s; simp [run]
  | cons e es ih => intro s; simp [run, ih]

theorem step_reset (K : Consts) (e : Event) (s : FirmwareUpdater)
    (hcmd : s.m_cmd_idx = CMD_IDX_RST) (hrw : s.rw_state = RW_NONE) :
    (step K e s).1.m_cmd_idx = CMD_IDX_RST ∧ (step K e s).1.rw_state = RW_NONE := by
  have hupd : s.m_cmd_idx ≠ CMD_IDX_UPD := by simp [hcmd]
  have hram : s.m_cmd_idx ≠ CMD_IDX_RAM := by simp [hcmd]
  have hstop : ∀ (err : Int) (t : FirmwareUpdater), t.m_cmd_idx = CMD_IDX_RST →
      t.rw_state = RW_NONE →
      (stop K err t).1.m_cmd_idx = CMD_IDX_RST ∧ (stop K err t).1.rw_state = RW_NONE := by
    intro err t h1 h2
    have hf := stop_rw_state K err t
    exact ⟨hf.2.1.trans h1, hf.1.trans h2⟩
  cases e with
  | descriptorWritten => exact ⟨hcmd, hrw⟩
  | characteristicChanged v =>
    simp only [step]
    rcases buffer_cases v with h | h | h | ⟨hc, h⟩
    · rw [processData_no_crlf K v s h]
      exact ⟨hcmd, hrw⟩
    · rw [processData_success K v s h, if_neg hupd]
      exact ⟨hcmd, hrw⟩
    · rw [processData_failure K v s h]
      exact hstop K.OK { s with rw_state := RW_NONE } hcmd rfl
    · rw [processData_other K v s hc h, if_neg hram]
      exact hstop K.OK s hcmd hrw
  | characteristicWritten =>
    have hf := sendData_frame s
    exact ⟨hf.2.2.1.trans hcmd, hf.2.1.trans hrw⟩
  | discoveryError => exact hstop K.ERR_DISCOVR s hcmd hrw
  | controlError => exact hstop K.ERR_CONTROL s hcmd hrw
  | disconnected => exact hstop K.ERR_CONTROL s hcmd hrw
  | serviceError => exact hstop K.ERR_SERVICE s hcmd hrw

theorem step_reset_idle (K : Consts) (e : Event) (s : FirmwareUpdater)
    (hinv : s.m_cmd_idx = CMD_IDX_RST → s.rw_state = RW_NONE) :
    (step K e s).1.m_cmd_idx = CMD_IDX_RST → (step K e s).1.rw_state = RW_NONE := by
  by_cases hcmd : s.m_cmd_idx = CMD_IDX_RST
  · intro _
    exact (step_reset K e s hcmd (hinv hcmd)).2
  · have hstop : ∀ (err : Int) (t : FirmwareUpdater), t.m_cmd_idx = s.m_cmd_idx →
        (stop K err t).1.m_cmd_idx = CMD_IDX_RST → (stop K err t).1.rw_state = RW_NONE := by
      intro err t h1 h2
      rw [(stop_rw_state K err t).2.1, h1] at h2
      exact absurd h2 hcmd
    cases e with
    | descriptorWritten => intro h; exact absurd h hcmd
    | characteristicChanged v =>
      simp only [step]
      rcases buffer_cases v with h | h | h | ⟨hc, h⟩
      · rw [processData_no_crlf K v s h]
        intro h2; exact absurd h2 hcmd
      · rw [processData_success K v s h]
        split_ifs with h1 h2
        · intro h3
          rw [(sendData_frame _).2.2.1] at h3
          exact absurd h3 hcmd
        · intro _; rfl
        · intro h3; exact absurd h3 hcmd
      · rw [processData_failure K v s h]
        exact hstop K.OK { s with rw_state := RW_NONE } rfl
      · rw [processData_other K v s hc h]
        split_ifs
        · intro h3
          have h4 : CMD_IDX_VER = CMD_IDX_RST := h3
          exact absurd h4 (by decide)
        · exact hstop K.OK s rfl
    | characteristicWritten =>
      intro h
      rw [show (step K Event.characteristicWritten s) = sendData s from rfl,
        (sendData_frame s).2.2.1] at h
      exact absurd h hcmd
    | discoveryError => exact hstop K.ERR_DISCOVR s rfl
    | controlError => exact hstop K.ERR_CONTROL s rfl
    | disconnected => exact hstop K.ERR_CONTROL s rfl
    | serviceError => exact hstop K.ERR_SERVICE s rfl

theorem run_reset_idle (K : Consts) (es : List Event) :
    ∀ s : FirmwareUpdater, (s.m_cmd_idx = CMD_IDX_RST → s.rw_state = RW_NONE) →
      ((run K es s).1.m_cmd_idx = CMD_IDX_RST → (run K es s).1.rw_state = RW_NONE) := by
  induction es with
  | nil => intro s h; exact h
  | cons e es ih =>
    intro s h
    exact ih (step K e s).1 (step_reset_idle K e s h)

theorem run_reset (K : Consts) (es : List Event) :
    ∀ s : FirmwareUpdater, s.m_cmd_idx = CMD_IDX_RST → s.rw_state = RW_NONE →
      (run K es s).1.m_cmd_idx = CMD_IDX_RST ∧ (run K es s).1.rw_state = RW_NONE := by
  induction es with
  | nil => intro s h1 h2; exact ⟨h1, h2⟩
  | cons e es ih =>
    intro s h1 h2
    have h := step_reset K e s h1 h2
    exact ih (step K e s).1 h.1 h.2

theorem sendData_end (s : FirmwareUpdater) (h : s.data_done = s.data_size) :
    sendData s = ({ s with data_fd := s.data_fd.close },
      [Action.cout ">> SENT:100%\r".toList, Action.disconnectWritten]) := by
  have hr : (s.data_size + UINT32_MOD - s.data_done) % UINT32_MOD = 0 := by
    rw [h, Nat.add_sub_cancel_left, Nat.mod_self]
  unfold sendData
  simp only [hr, if_true]

theorem chunk_length (image : QByteArray) (d : Nat) :
    ((image.drop d).take TX_BUF_SIZE).length = min TX_BUF_SIZE (image.length - d) := by
  rw [List.length_take, List.length_drop]

theorem sendData_next (s : FirmwareUpdater) (image : QByteArray) (d : Nat)
    (hsize : s.data_size = image.length) (hS : image.length < UINT32_MOD)
    (hdone : s.data_done = d) (hd : d < image.length)
    (hfd : s.data_fd = { bytes := image, pos := d, isOpen := true }) :
    sendData s =
      ({ s with data_fd := { bytes := image, pos := d + min TX_BUF_SIZE (image.length - d),
                             isOpen := true },
                data_done := d + min TX_BUF_SIZE (image.length - d) },
        [Action.cout (">> SENT:".toList
            ++ (Nat.repr (progress s.data_done s.data_size)).toList ++ "%\r".toList),
         Action.writeCharacteristic ((image.drop d).take TX_BUF_SIZE) WriteWithResponse]) := by
  have hr : (s.data_size + UINT32_MOD - s.data_done) % UINT32_MOD = image.length - d := by
    rw [hsize, hdone]
    simp only [UINT32_MOD] at hS ⊢
    omega
  have hne : image.length - d ≠ 0 := by omega
  have hrl : (if image.length - d ≥ TX_BUF_SIZE then TX_BUF_SIZE else image.length - d)
      = min TX_BUF_SIZE (image.length - d) := by
    split_ifs with h
    · exact (Nat.min_eq_left h).symm
    · exact (Nat.min_eq_right (by omega)).symm
  have hbuf : (image.drop d).take (min TX_BUF_SIZE (image.length - d))
      = (image.drop d).take TX_BUF_SIZE := by
    rw [← List.length_drop d image, List.take_eq_take]
    simp
  have hmod : (d + min TX_BUF_SIZE (image.length - d)) % UINT32_MOD
      = d + min TX_BUF_SIZE (image.length - d) := by
    apply Nat.mod_eq_of_lt
    have : d + min TX_BUF_SIZE (image.length - d) ≤ image.length := by
      have := Nat.min_le_right TX_BUF_SIZE (image.length - d)
      omega
    omega
  unfold sendData
  simp only [hr, hrl, if_neg hne, hfd, QFile.read, if_true, hbuf, chunk_length]
  rw [← hdone, ← hsize]
  simp only [hdone, hsize, hmod]

theorem run_acks (K : Consts) (image : QByteArray) (hS : image.length < UINT32_MOD) (n : Nat) :
    ∀ (k : Nat) (s : FirmwareUpdater), s.data_size = image.length →
      s.data_done = min (512 * k) image.length →
      (s.data_done < image.length →
        s.data_fd = { bytes := image, pos := s.data_done, isOpen := true }) →
      (run K (List.replicate n Event.characteristicWritten) s).1.data_size = image.length
      ∧ (run K (List.replicate n Event.characteristicWritten) s).1.data_done
          = min (512 * (k + n)) image.length
      ∧ writes (run K (List.replicate n Event.characteristicWritten) s).2
          = (List.range' k (min (k + n) ((image.length + 511) / 512) - k)).map
              (fun i => (image.drop (512 * i)).take 512)
      ∧ ((writes (run K (List.replicate n Event.characteristicWritten) s).2).map
            List.length).sum
          = min (512 * (k + n)) image.length - min (512 * k) image.length := by
  induction n with
  | zero =>
    intro k s hsize hdone _
    have h0 : min (k + 0) ((image.length + 511) / 512) - k = 0 := by omega
    simp only [List.replicate, run, h0, List.range'_zero, List.map_nil, writes, List.sum_nil]
    exact ⟨hsize, hdone, trivial, by simp⟩
  | succ n ih =>
    intro k s hsize hdone hfd
    simp only [List.replicate_succ, run, step, writes_append, List.map_append, List.sum_append]
    by_cases hlt : s.data_done < image.length
    · have hk : 512 * k < image.length := by omega
      have hd : s.data_done = 512 * k := by omega
      have hnext := sendData_next s image (512 * k) hsize hS hd hk (by rw [← hd]; exact hfd hlt)
      simp only [TX_BUF_SIZE] at hnext
      have hnew : 512 * k + min 512 (image.length - 512 * k)
          = min (512 * (k + 1)) image.length := by omega
      rw [hnext]
      have h := ih (k + 1)
        { s with data_fd := { bytes := image, pos := 512 * k + min 512 (image.length - 512 * k),
                              isOpen := true },
                 data_done := 512 * k + min 512 (image.length - 512 * k) }
        hsize hnew (fun _ => rfl)
      have hlen : min (k + (n + 1)) ((image.length + 511) / 512) - k
          = (min (k + 1 + n) ((image.length + 511) / 512) - (k + 1)) + 1 := by omega
      have hcl := chunk_length image (512 * k)
      simp only [TX_BUF_SIZE] at hcl
      rw [hlen, List.range'_succ, List.map_cons]
      simp only [writes, List.map_cons, List.sum_cons, List.sum_nil, List.map_nil, hcl,
        List.cons_append, List.nil_append]
      refine ⟨h.1, ?_, ?_, ?_⟩
      · rw [h.2.1]; congr 2; omega
      · rw [h.2.2.1]
      · rw [h.2.2.2]; omega
    · have hd : s.data_done = image.length := by omega
      have hk : image.length ≤ 512 * k := by omega
      rw [sendData_end s (by rw [hd, hsize])]
      have h := ih (k + 1) { s with data_fd := s.data_fd.close } hsize
        (by show s.data_done = _; omega) (fun h => absurd h hlt)
      have hlen : min (k + (n + 1)) ((image.length + 511) / 512) - k = 0 := by omega
      have hlen2 : min (k + 1 + n) ((image.length + 511) / 512) - (k + 1) = 0 := by omega
      rw [hlen2] at h
      rw [hlen]
      simp only [writes, List.range'_zero, List.map_nil, List.sum_nil, List.nil_append,
        Nat.zero_add]
      refine ⟨h.1, ?_, ?_, ?_⟩
      · rw [h.2.1]; congr 2; omega
      · rw [h.2.2.1]; rfl
      · rw [h.2.2.2]; omega

theorem digitChar_nonzero : ∀ d < 10, (Nat.digitChar d).toNat ≠ 0 := by
  decide

theorem toDigitsCore_nonzero (fuel : Nat) :
    ∀ (n : Nat) (ds : List Char), (∀ c ∈ ds, c.toNat ≠ 0) →
      ∀ c ∈ Nat.toDigitsCore 10 fuel n ds, c.toNat ≠ 0 := by
  induction fuel with
  | zero => intro n ds h; simpa [Nat.toDigitsCore] using h
  | succ f ih =>
    intro n ds h
    have hcons : ∀ c ∈ Nat.digitChar (n % 10) :: ds, c.toNat ≠ 0 := by
      intro c hc
      rcases List.mem_cons.1 hc with rfl | hc
      · exact digitChar_nonzero _ (Nat.mod_lt _ (by decide))
      · exact h c hc
    unfold Nat.toDigitsCore
    simp only []
    split_ifs
    · exact hcons
    · exact ih _ _ hcons

theorem repr_nonzero (n : Nat) : ∀ c ∈ (Nat.repr n).toList, c.toNat ≠ 0 := by
  unfold Nat.repr Nat.toDigits
  simpa [List.asString] using toDigitsCore_nonzero (n + 1) n [] (by simp)

theorem cstr_CMD_FMT_UPD (n : Nat) :
    cstr (CMD_FMT_UPD n ++ CRLF)
      = "FW+UPD:".toList ++ (Nat.repr n).toList ++ "\r\n".toList := by
  have hU : ∀ c ∈ "FW+UPD:".toList, c.toNat ≠ 0 := by decide
  have hC : ∀ c ∈ CRLF, c.toNat ≠ 0 := by decide
  have h : ∀ c ∈ CMD_FMT_UPD n ++ CRLF, c.toNat ≠ 0 := by
    intro c hc
    unfold CMD_FMT_UPD at hc
    rcases List.mem_append.1 hc with hc | hc
    · rcases List.mem_append.1 hc with hc | hc
      · exact hU c hc
      · exact repr_nonzero n c hc
    · exact hC c hc
  have := cstr_append (CMD_FMT_UPD n ++ CRLF) [] h
  rw [List.append_nil] at this
  rw [this]
  simp only [cstr, List.takeWhile_nil, List.append_nil]
  rfl

theorem first_chunk (s : FirmwareUpdater) (image : QByteArray)
    (hsize : s.data_size = image.length) (hS : image.length < UINT32_MOD)
    (hdone : s.data_done = 0)
    (hfd : s.data_fd = { bytes := image, pos := 0, isOpen := true }) :
    writes (sendData s).2 = if image = [] then [] else [image.take TX_BUF_SIZE] := by
  by_cases hi : image = []
  · rw [if_pos hi]
    apply (sendData_complete s _).2
    rw [hdone, hsize, hi]
    rfl
  · rw [if_neg hi, sendData_next s image 0 hsize hS hdone (List.length_pos.2 hi) hfd]
    rfl

theorem processData_idle_update (K : Consts) (s : FirmwareUpdater) (v : QByteArray)
    (hcmd : s.m_cmd_idx = CMD_IDX_UPD) (hrw : s.rw_state = RW_NONE)
    (hv : "OK\r\n".toList <+: v ∨ "DONE\r\n".toList <+: v) :
    (processData K v s).1.rw_state = RW_WRITE
    ∧ (processData K v s).1.m_cmd_idx = CMD_IDX_UPD
    ∧ writes (processData K v s).2 = writes (sendData { s with rw_state := RW_WRITE }).2 := by
  rw [processData_success K v s hv, if_pos hcmd, if_pos hrw]
  simp only [writes_append, (echo_silent v s).1, writes, List.nil_append]
  exact ⟨(sendData_frame _).2.1, (sendData_frame _).2.2.1.trans hcmd, trivial⟩

/-! ## The claims -/

/-- C1, counterexample. The claim as stated, for every session state: a
session that already holds the result `ERR_ARG` keeps it through `stop(OK)`
followed by `stop(ERR_FILE)`; the recorded code is not the code of the first of
the two calls. -/
theorem stop_twice_counterexample :
    (stop specConsts specConsts.ERR_FILE
        (stop specConsts specConsts.OK
          { freshSession with err_code := specConsts.ERR_ARG }).1).1.err_code
      = specConsts.ERR_ARG
    ∧ specConsts.ERR_ARG ≠ specConsts.OK := by
  decide

/-- C1, amended. Finalization is latched. For every session state, every code
`c1` other than the pending marker and every code `c2`: the call `stop(c2)` made
after `stop(c1)` changes nothing and has no effect (no outcome line, no
disconnect request, no `finished` signal); the recorded code is `c1` when the
session was pending before the first call, and in a session that already holds a
result the first call changes nothing either. Over any sequence of events at
most one `finished` signal is emitted (the codes the slots pass to `stop` being
other than the pending marker), and a recorded result never changes. -/
theorem stop_latched (K : Consts) (s : FirmwareUpdater) (c1 c2 : Int)
    (hc1 : c1 ≠ K.NONE) :
    stop K c2 (stop K c1 s).1 = ((stop K c1 s).1, [])
    ∧ (s.err_code = K.NONE → (stop K c1 s).1.err_code = c1)
    ∧ (s.err_code ≠ K.NONE → stop K c1 s = (s, []))
    ∧ (K.OK ≠ K.NONE ∧ K.ERR_DISCOVR ≠ K.NONE ∧ K.ERR_CONTROL ≠ K.NONE
        ∧ K.ERR_SERVICE ≠ K.NONE →
        ∀ es : List Event, (finishes (run K es s).2).length ≤ 1)
    ∧ (∀ es : List Event, s.err_code ≠ K.NONE →
        (run K es s).1.err_code = s.err_code ∧ finishes (run K es s).2 = []) := by
  refine ⟨?_, ?_, ?_, ?_, ?_⟩
  · apply stop_done
    by_cases h : s.err_code = K.NONE
    · rw [(stop_pending K c1 s h).1]
      exact hc1
    · rw [stop_done K c1 s h]
      exact h
  · intro h
    rw [(stop_pending K c1 s h).1]
  · exact stop_done K c1 s
  · intro hK es
    exact run_finishes_le_one K hK es s
  · intro es h
    exact run_done K es s h

/-- C1, witness: a pending session, `stop(OK)` then `stop(ERR_CONTROL)`. -/
theorem stop_latched_witness :
    stop specConsts specConsts.ERR_CONTROL (stop specConsts specConsts.OK freshSession).1
      = ((stop specConsts specConsts.OK freshSession).1, [])
    ∧ (stop specConsts specConsts.OK freshSession).1.err_code = specConsts.OK :=
  ⟨(stop_latched specConsts freshSession specConsts.OK specConsts.ERR_CONTROL
      (by decide)).1,
   (stop_latched specConsts freshSession specConsts.OK specConsts.ERR_CONTROL
      (by decide)).2.1 rfl⟩

/-- C2, counterexample. A pending session whose active command is Reset
receives `FAIL`: the code recorded and signalled is `OK`, the success code. -/
theorem processData_fail_counterexample :
    (processData specConsts "FAIL\r\n".toList
        { freshSession with m_cmd_idx := CMD_IDX_RST, m_cmd_sent := true }).1.err_code
      = specConsts.OK
    ∧ finishes (processData specConsts "FAIL\r\n".toList
        { freshSession with m_cmd_idx := CMD_IDX_RST, m_cmd_sent := true }).2
      = [specConsts.OK] := by
  decide

/-- C2, amended. For every active command and every pending session, a buffer
that begins with `FAIL\r\n` or `ERROR\r\n` finalizes the session with the
code `OK` (the code `processData` passes to `stop` on every path), sets the
transfer state to idle and changes nothing else; one `finished(OK)` is
signalled and nothing is written in that step. -/
theorem processData_fail_error (K : Consts) (s : FirmwareUpdater) (value : QByteArray)
    (hp : s.err_code = K.NONE)
    (hv : "FAIL\r\n".toList <+: value ∨ "ERROR\r\n".toList <+: value) :
    (processData K value s).1 = { s with rw_state := RW_NONE, err_code := K.OK }
    ∧ finishes (processData K value s).2 = [K.OK]
    ∧ writes (processData K value s).2 = [] := by
  have hs := stop_pending K K.OK { s with rw_state := RW_NONE } hp
  rw [processData_failure K value s hv]
  simp only [finishes_append, writes_append, (echo_silent value s).1, (echo_silent value s).2,
    List.nil_append]
  exact ⟨hs.1, hs.2.1, hs.2.2⟩

/-- C2, witness: `ERROR` during a transfer. -/
theorem processData_fail_error_witness :
    (processData specConsts "ERROR\r\n".toList { freshSession with rw_state := RW_WRITE }).1
      = { freshSession with rw_state := RW_NONE, err_code := specConsts.OK } :=
  (processData_fail_error specConsts { freshSession with rw_state := RW_WRITE }
    "ERROR\r\n".toList rfl (Or.inr ⟨[], rfl⟩)).1

/-- C3, counterexample. Reset is the active command and has been sent; the
link drops. The outcome line is `>! OK`, but the code recorded and signalled
to the caller is `ERR_CONTROL`, which is not the success code. -/
theorem deviceDisconnected_reset_counterexample :
    (deviceDisconnected specConsts
        { freshSession with m_cmd_idx := CMD_IDX_RST, m_cmd_sent := true }).1.err_code
      = specConsts.ERR_CONTROL
    ∧ finishes (deviceDisconnected specConsts
        { freshSession with m_cmd_idx := CMD_IDX_RST, m_cmd_sent := true }).2
      = [specConsts.ERR_CONTROL]
    ∧ specConsts.ERR_CONTROL ≠ specConsts.OK := by
  decide

/-- C3, amended. For every pending session a connection-level error
(`errorControl`, which `deviceDisconnected` calls) records `ERR_CONTROL` and
signals `finished(ERR_CONTROL)`, whatever the active command. The Reset
carve-out selects the outcome line only: `>! OK` when the active command is
Reset and the command has been sent, `>! ERROR` otherwise. -/
theorem errorControl_carve_out (K : Consts) (s : FirmwareUpdater)
    (hp : s.err_code = K.NONE) (hd : K.ERR_CONTROL ≠ K.ERR_DISCOVR) :
    deviceDisconnected K s = errorControl K s
    ∧ (errorControl K s).1 = { s with err_code := K.ERR_CONTROL }
    ∧ finishes (errorControl K s).2 = [K.ERR_CONTROL]
    ∧ (errorControl K s).2 =
        (if s.rw_state ≠ RW_NONE then [Action.cout endl] else [])
        ++ [Action.cout ((if s.m_cmd_idx = CMD_IDX_RST ∧ s.m_cmd_sent = true
              then ">! OK".toList else ">! ERROR".toList) ++ endl)]
        ++ (if s.m_control then [Action.disconnectFromDevice] else [])
        ++ [Action.finished K.ERR_CONTROL] := by
  have hs := stop_pending K K.ERR_CONTROL s hp
  refine ⟨rfl, hs.1, hs.2.1, ?_⟩
  unfold errorControl stop
  rw [if_pos hp, if_neg hd, if_pos rfl]
  by_cases hc : s.m_cmd_idx = CMD_IDX_RST ∧ s.m_cmd_sent = true
  · rw [if_pos hc, if_pos hc]
  · rw [if_neg hc, if_neg hc]

/-- C3, witness: the link drops while an update is waiting for its response. -/
theorem errorControl_carve_out_witness :
    (errorControl specConsts freshSession).1
      = { freshSession with err_code := specConsts.ERR_CONTROL } :=
  (errorControl_carve_out specConsts freshSession rfl (by decide)).2.1

/-- C4, counterexample. Reset is the active command and `OK` arrives: no
result is recorded and no `finished` signal is emitted. -/
theorem processData_ok_counterexample :
    (processData specConsts "OK\r\n".toList
        { freshSession with m_cmd_idx := CMD_IDX_RST, m_cmd_sent := true }).1.err_code
      = specConsts.NONE
    ∧ finishes (processData specConsts "OK\r\n".toList
        { freshSession with m_cmd_idx := CMD_IDX_RST, m_cmd_sent := true }).2 = [] := by
  decide

/-- C4, amended. For every session whose active command is not Update (Reset,
GetInfo phase 1, GetInfo phase 2), a buffer that begins with `OK\r\n` or
`DONE\r\n` is echoed and nothing else happens: the session state is unchanged
(it is not finalized), no `finished` signal is emitted and nothing is written. -/
theorem processData_ok_done_other_command (K : Consts) (s : FirmwareUpdater)
    (value : QByteArray) (hcmd : s.m_cmd_idx ≠ CMD_IDX_UPD)
    (hv : "OK\r\n".toList <+: value ∨ "DONE\r\n".toList <+: value) :
    processData K value s = (s, echo value s)
    ∧ finishes (processData K value s).2 = []
    ∧ writes (processData K value s).2 = [] := by
  rw [processData_success K value s hv, if_neg hcmd]
  exact ⟨rfl, (echo_silent value s).2, (echo_silent value s).1⟩

/-- C4, witness: `DONE` in GetInfo phase 2. -/
theorem processData_ok_done_other_command_witness :
    processData specConsts "DONE\r\n".toList { freshSession with m_cmd_idx := CMD_IDX_VER }
      = ({ freshSession with m_cmd_idx := CMD_IDX_VER },
          echo "DONE\r\n".toList { freshSession with m_cmd_idx := CMD_IDX_VER }) :=
  (processData_ok_done_other_command specConsts { freshSession with m_cmd_idx := CMD_IDX_VER }
    "DONE\r\n".toList (by decide) (Or.inr ⟨[], rfl⟩)).1

/-- C5. Chunking. A session holds an image of `S` bytes (`S` a 32-bit size),
nothing sent yet, the file open at its start, so that no read is short. After
`n` calls of `sendData`, one per write acknowledgement, the chunks written are
the slices `image[512 i, 512 i + 512)` for `i < min n ⌈S/512⌉`, in order; the
`i`-th has `min 512 (S - 512 i)` bytes; once `n` reaches `⌈S/512⌉` exactly
`⌈S/512⌉` chunks have been written and their sizes sum to `S`; the call after
the last chunk writes nothing; `data_done` never decreases and never exceeds
`data_size`. -/
theorem chunking (K : Consts) (image : QByteArray) (s : FirmwareUpdater) (n : Nat)
    (hS : image.length < UINT32_MOD) (hsize : s.data_size = image.length)
    (hdone : s.data_done = 0)
    (hfd : s.data_fd = { bytes := image, pos := 0, isOpen := true }) :
    writes (run K (List.replicate n Event.characteristicWritten) s).2
      = (List.range (min n ((image.length + 511) / 512))).map
          (fun i => (image.drop (512 * i)).take 512)
    ∧ (∀ i : Nat, ((image.drop (512 * i)).take 512).length = min 512 (image.length - 512 * i))
    ∧ ((image.length + 511) / 512 ≤ n →
        (writes (run K (List.replicate n Event.characteristicWritten) s).2).length
          = (image.length + 511) / 512
        ∧ ((writes (run K (List.replicate n Event.characteristicWritten) s).2).map
            List.length).sum = image.length)
    ∧ writes (sendData (run K (List.replicate ((image.length + 511) / 512)
        Event.characteristicWritten) s).1).2 = []
    ∧ (run K (List.replicate n Event.characteristicWritten) s).1.data_done
        ≤ (run K (List.replicate (n + 1) Event.characteristicWritten) s).1.data_done
    ∧ (run K (List.replicate n Event.characteristicWritten) s).1.data_done
        ≤ (run K (List.replicate n Event.characteristicWritten) s).1.data_size := by
  have h0 : s.data_done = min (512 * 0) image.length := by rw [hdone]; simp
  have hfd0 : s.data_done < image.length →
      s.data_fd = { bytes := image, pos := s.data_done, isOpen := true } := by
    intro _; rw [hfd, hdone]
  have hn := run_acks K image hS n 0 s hsize h0 hfd0
  have hn1 := run_acks K image hS (n + 1) 0 s hsize h0 hfd0
  have hc := run_acks K image hS ((image.length + 511) / 512) 0 s hsize h0 hfd0
  simp only [Nat.zero_add, Nat.sub_zero, Nat.mul_zero, Nat.zero_min] at hn hn1 hc
  refine ⟨?_, ?_, ?_, ?_, ?_, ?_⟩
  · rw [hn.2.2.1, List.range_eq_range']
  · intro i
    have := chunk_length image (512 * i)
    simpa only [TX_BUF_SIZE] using this
  · intro hle
    constructor
    · rw [hn.2.2.1, List.length_map, List.length_range', Nat.min_eq_right hle]
    · rw [hn.2.2.2]
      omega
  · apply (sendData_complete _ _).2
    rw [hc.1, hc.2.1]
    omega
  · rw [hn.2.1, hn1.2.1]
    omega
  · rw [hn.1, hn.2.1]
    omega

/-- C5, witness: an image of 600 bytes, three acknowledgements. -/
theorem chunking_witness :
    writes (run specConsts (List.replicate 3 Event.characteristicWritten)
      { freshSession with data_size := 600,
                          data_fd := { bytes := List.replicate 600 'x', pos := 0,
                                       isOpen := true } }).2
      = (List.range (min 3 (((List.replicate 600 'x').length + 511) / 512))).map
          (fun i => ((List.replicate 600 'x').drop (512 * i)).take 512) :=
  (chunking specConsts (List.replicate 600 'x')
    { freshSession with data_size := 600,
                        data_fd := { bytes := List.replicate 600 'x', pos := 0,
                                     isOpen := true } } 3
    (by rw [List.length_replicate]; decide) (List.length_replicate 600 'x').symm rfl rfl).1

/-- C6, counterexample. An update of a three-byte image: the command is sent,
`FAIL` arrives and finalizes the session, then `OK` arrives. That last step
writes the image as a chunk and the transfer state becomes `RW_WRITE`. -/
theorem write_after_failure_counterexample :
    (run specConsts
        [Event.descriptorWritten, Event.characteristicChanged "FAIL\r\n".toList]
        (start specConsts (oneImage 3) ["fwupd", "AA:BB", "update", "fw.bin"]
          freshSession).1).1.err_code = specConsts.OK
    ∧ writes (step specConsts (Event.characteristicChanged "OK\r\n".toList)
        (run specConsts
          [Event.descriptorWritten, Event.characteristicChanged "FAIL\r\n".toList]
          (start specConsts (oneImage 3) ["fwupd", "AA:BB", "update", "fw.bin"]
            freshSession).1).1).2 = ["xxx".toList]
    ∧ (step specConsts (Event.characteristicChanged "OK\r\n".toList)
        (run specConsts
          [Event.descriptorWritten, Event.characteristicChanged "FAIL\r\n".toList]
          (start specConsts (oneImage 3) ["fwupd", "AA:BB", "update", "fw.bin"]
            freshSession).1).1).1.rw_state = RW_WRITE := by
  decide

/-- C6, amended. After a buffer that begins with `FAIL\r\n` or `ERROR\r\n`
has been processed: nothing was written in that step and the transfer state is
idle; the session is finalized and stays so whatever events follow (the
recorded code never changes and no further `finished` signal is emitted). The
slots do not consult the latch, so later writes are excluded only where the
slots issue none: when the active command is Reset or GetInfo phase 2 and no
image bytes remain, no later sequence of notifications, write
acknowledgements and errors writes a command or a chunk, and the transfer state
stays idle. -/
theorem after_failure (K : Consts) (s : FirmwareUpdater) (value : QByteArray)
    (hv : "FAIL\r\n".toList <+: value ∨ "ERROR\r\n".toList <+: value)
    (hOK : K.OK ≠ K.NONE) :
    writes (processData K value s).2 = []
    ∧ (processData K value s).1.rw_state = RW_NONE
    ∧ (processData K value s).1.err_code ≠ K.NONE
    ∧ (∀ es : List Event,
        (run K es (processData K value s).1).1.err_code = (processData K value s).1.err_code
        ∧ finishes (run K es (processData K value s).1).2 = [])
    ∧ ((s.m_cmd_idx = CMD_IDX_RST ∨ s.m_cmd_idx = CMD_IDX_VER) → s.data_done = s.data_size →
        ∀ es : List Event, (∀ e ∈ es, e ≠ Event.descriptorWritten) →
          writes (run K es (processData K value s).1).2 = []
          ∧ (run K es (processData K value s).1).1.rw_state = RW_NONE) := by
  have hf := stop_rw_state K K.OK { s with rw_state := RW_NONE }
  have hfin : (processData K value s).1.err_code ≠ K.NONE := by
    rw [processData_failure K value s hv]
    by_cases hp : s.err_code = K.NONE
    · rw [(stop_pending K K.OK { s with rw_state := RW_NONE } hp).1]
      exact hOK
    · rw [stop_done K K.OK { s with rw_state := RW_NONE } hp]
      exact hp
  refine ⟨?_, ?_, hfin, fun es => run_done K es _ hfin, ?_⟩
  · rw [processData_failure K value s hv]
    simp only [writes_append, (echo_silent value s).1, List.nil_append]
    exact stop_writes K K.OK _
  · rw [processData_failure K value s hv]
    exact hf.1
  · intro hcmd hd es hes
    have hq := run_quiet K es (processData K value s).1 hes
      (by rw [processData_failure K value s hv]; simp only [hf.2.1]; exact hcmd)
      (by rw [processData_failure K value s hv]; simp only [hf.2.2.1, hf.2.2.2]; exact hd)
      (by rw [processData_failure K value s hv]; exact hf.1)
    exact ⟨hq.2, hq.1⟩

/-- C6, witness: `FAIL` answers a Reset; a notification, a write
acknowledgement and the disconnect follow. -/
theorem after_failure_witness :
    writes (run specConsts
      [Event.characteristicChanged "OK\r\n".toList, Event.characteristicWritten,
        Event.disconnected]
      (processData specConsts "FAIL\r\n".toList
        { freshSession with m_cmd_idx := CMD_IDX_RST }).1).2 = [] :=
  ((after_failure specConsts { freshSession with m_cmd_idx := CMD_IDX_RST } "FAIL\r\n".toList
    (Or.inl ⟨[], rfl⟩) (by decide)).2.2.2.2 (Or.inl rfl) rfl
    [Event.characteristicChanged "OK\r\n".toList, Event.characteristicWritten,
      Event.disconnected] (by decide)).1

/-- C7. GetInfo flow: for a pending session started with `get-info` and two
CR-LF-terminated buffers that begin with none of the four control strings,
after the notification channel is ready and the buffers arrive in sequence,
exactly two commands have been written, `FW+RAM?\r\n` then `FW+VER?\r\n`, and
the session is finalized with `OK` by one `finished(OK)`; before the second
buffer it is still pending and nothing has been signalled. -/
theorem getInfo_flow (K : Consts) (fs : String → Option QByteArray) (prog addr : String)
    (s0 : FirmwareUpdater) (b1 b2 : QByteArray)
    (hp : s0.err_code = K.NONE)
    (t1 : CRLF <:+ b1) (t2 : CRLF <:+ b2)
    (n1 : ∀ e ∈ rsp_fmt, ¬ e.fmt <+: b1) (n2 : ∀ e ∈ rsp_fmt, ¬ e.fmt <+: b2) :
    writes ((start K fs [prog, addr, "get-info"] s0).2 ++
        (run K [Event.descriptorWritten, Event.characteristicChanged b1,
          Event.characteristicChanged b2] (start K fs [prog, addr, "get-info"] s0).1).2)
      = ["FW+RAM?\r\n".toList, "FW+VER?\r\n".toList]
    ∧ (run K [Event.descriptorWritten, Event.characteristicChanged b1,
        Event.characteristicChanged b2] (start K fs [prog, addr, "get-info"] s0).1).1.err_code
      = K.OK
    ∧ finishes (run K [Event.descriptorWritten, Event.characteristicChanged b1,
        Event.characteristicChanged b2] (start K fs [prog, addr, "get-info"] s0).1).2
      = [K.OK]
    ∧ (run K [Event.descriptorWritten, Event.characteristicChanged b1]
        (start K fs [prog, addr, "get-info"] s0).1).1.err_code = K.NONE
    ∧ finishes (start K fs [prog, addr, "get-info"] s0).2 ++
        finishes (run K [Event.descriptorWritten, Event.characteristicChanged b1]
          (start K fs [prog, addr, "get-info"] s0).1).2 = [] := by
  have c1 := contains_of_suffix b1 CRLF t1
  have c2 := contains_of_suffix b2 CRLF t2
  have r1 : step K Event.descriptorWritten
      { s0 with m_arg := [prog, addr, "get-info"], m_cmd_idx := CMD_IDX_RAM,
                m_cmd_str := "FW+RAM?\r\n".toList }
      = ({ s0 with m_arg := [prog, addr, "get-info"], m_cmd_idx := CMD_IDX_RAM,
                   m_cmd_str := "FW+RAM?\r\n".toList, m_cmd_sent := true },
          [Action.cout "=> FW+RAM?\r\n".toList,
           Action.writeCharacteristic "FW+RAM?\r\n".toList WriteWithoutResponse]) := rfl
  have r2 : step K (Event.characteristicChanged b1)
      { s0 with m_arg := [prog, addr, "get-info"], m_cmd_idx := CMD_IDX_RAM,
                m_cmd_str := "FW+RAM?\r\n".toList, m_cmd_sent := true }
      = ({ s0 with m_arg := [prog, addr, "get-info"], m_cmd_idx := CMD_IDX_VER,
                   m_cmd_str := "FW+VER?\r\n".toList, m_cmd_sent := true },
          [Action.cout ("<= ".toList ++ cstr b1), Action.cout "=> FW+VER?\r\n".toList,
           Action.writeCharacteristic "FW+VER?\r\n".toList WriteWithoutResponse]) := by
    simp only [step]
    rw [processData_other K b1 _ c1 n1]
    rfl
  have r3 : step K (Event.characteristicChanged b2)
      { s0 with m_arg := [prog, addr, "get-info"], m_cmd_idx := CMD_IDX_VER,
                m_cmd_str := "FW+VER?\r\n".toList, m_cmd_sent := true }
      = ((stop K K.OK
            { s0 with m_arg := [prog, addr, "get-info"], m_cmd_idx := CMD_IDX_VER,
                      m_cmd_str := "FW+VER?\r\n".toList, m_cmd_sent := true }).1,
          [Action.cout ("<= ".toList ++ cstr b2)] ++
          (stop K K.OK
            { s0 with m_arg := [prog, addr, "get-info"], m_cmd_idx := CMD_IDX_VER,
                      m_cmd_str := "FW+VER?\r\n".toList, m_cmd_sent := true }).2) := by
    simp only [step]
    rw [processData_other K b2 _ c2 n2]
    rfl
  have hs := stop_pending K K.OK
    { s0 with m_arg := [prog, addr, "get-info"], m_cmd_idx := CMD_IDX_VER,
              m_cmd_str := "FW+VER?\r\n".toList, m_cmd_sent := true } hp
  rw [start_getInfo]
  simp only [run, r1, r2, r3, writes_append, finishes_append, hs.1, hs.2.1, hs.2.2]
  exact ⟨rfl, trivial, rfl, hp, rfl⟩

/-- C7, witness: the buffers `mem=1234\r\n` and `v1.0\r\n`. -/
theorem getInfo_flow_witness :
    writes ((start specConsts (oneImage 0) ["fwupd", "AA:BB", "get-info"] freshSession).2 ++
        (run specConsts [Event.descriptorWritten,
          Event.characteristicChanged "mem=1234\r\n".toList,
          Event.characteristicChanged "v1.0\r\n".toList]
          (start specConsts (oneImage 0) ["fwupd", "AA:BB", "get-info"] freshSession).1).2)
      = ["FW+RAM?\r\n".toList, "FW+VER?\r\n".toList] :=
  (getInfo_flow specConsts (oneImage 0) "fwupd" "AA:BB" freshSession
    "mem=1234\r\n".toList "v1.0\r\n".toList rfl ⟨"mem=1234".toList, rfl⟩ ⟨"v1.0".toList, rfl⟩
    (by decide) (by decide)).1

/-- C8, counterexample. An update of an empty image: the command
`FW+UPD:0\r\n` is sent and `OK` arrives. The transfer state becomes
`RW_WRITE`, but that step writes no chunk: `sendData` finds nothing left,
prints 100% and closes the file. -/
theorem update_empty_image_counterexample :
    writes (run specConsts [Event.descriptorWritten]
        (start specConsts (oneImage 0) ["fwupd", "AA:BB", "update", "fw.bin"]
          freshSession).1).2 = ["FW+UPD:0\r\n".toList]
    ∧ (run specConsts
        [Event.descriptorWritten, Event.characteristicChanged "OK\r\n".toList]
        (start specConsts (oneImage 0) ["fwupd", "AA:BB", "update", "fw.bin"]
          freshSession).1).1.rw_state = RW_WRITE
    ∧ writes (step specConsts (Event.characteristicChanged "OK\r\n".toList)
        (run specConsts [Event.descriptorWritten]
          (start specConsts (oneImage 0) ["fwupd", "AA:BB", "update", "fw.bin"]
            freshSession).1).1).2 = [] := by
  decide

/-- C8, amended. Update flow, command sequencing. A session is started with
`update` on an image of `S` bytes (`S` a 32-bit size) from the idle transfer
state. The first command written is `FW+UPD:` followed by `S` in decimal and
CR-LF. The first `OK`/`DONE` response moves the transfer state to `RW_WRITE`
and, when the image is not empty, writes the first chunk, the first 512 bytes
of the image; for an empty image nothing is written. An `OK`/`DONE` response
received in any Update session in state `RW_WRITE` moves the state back to
`RW_NONE`, makes Reset the active command and writes `FW+RST!\r\n`. Once
Reset is the active command it stays so and the transfer state is `RW_NONE`
after every further sequence of events. -/
theorem update_flow (K : Consts) (fs : String → Option QByteArray) (prog addr path : String)
    (image : QByteArray) (s0 : FirmwareUpdater)
    (hfs : fs path = some image) (hS : image.length < UINT32_MOD)
    (hidle : s0.rw_state = RW_NONE) :
    writes ((start K fs [prog, addr, "update", path] s0).2 ++
        (run K [Event.descriptorWritten] (start K fs [prog, addr, "update", path] s0).1).2)
      = ["FW+UPD:".toList ++ (Nat.repr image.length).toList ++ "\r\n".toList]
    ∧ (∀ v : QByteArray, ("OK\r\n".toList <+: v ∨ "DONE\r\n".toList <+: v) →
        (run K [Event.descriptorWritten, Event.characteristicChanged v]
          (start K fs [prog, addr, "update", path] s0).1).1.rw_state = RW_WRITE
        ∧ (run K [Event.descriptorWritten, Event.characteristicChanged v]
          (start K fs [prog, addr, "update", path] s0).1).1.m_cmd_idx = CMD_IDX_UPD
        ∧ writes (step K (Event.characteristicChanged v)
            (run K [Event.descriptorWritten]
              (start K fs [prog, addr, "update", path] s0).1).1).2
          = if image = [] then [] else [image.take 512])
    ∧ (∀ (s : FirmwareUpdater) (v : QByteArray), s.m_cmd_idx = CMD_IDX_UPD →
        s.rw_state = RW_WRITE → ("OK\r\n".toList <+: v ∨ "DONE\r\n".toList <+: v) →
        (processData K v s).1.rw_state = RW_NONE
        ∧ (processData K v s).1.m_cmd_idx = CMD_IDX_RST
        ∧ writes (processData K v s).2 = ["FW+RST!\r\n".toList])
    ∧ (∀ es1 es2 : List Event,
        (run K es1 (start K fs [prog, addr, "update", path] s0).1).1.m_cmd_idx = CMD_IDX_RST →
        (run K (es1 ++ es2) (start K fs [prog, addr, "update", path] s0).1).1.m_cmd_idx
          = CMD_IDX_RST
        ∧ (run K (es1 ++ es2) (start K fs [prog, addr, "update", path] s0).1).1.rw_state
          = RW_NONE) := by
  have hmod : image.length % UINT32_MOD = image.length := Nat.mod_eq_of_lt hS
  rw [start_update K fs prog addr path image s0 hfs, hmod]
  refine ⟨?_, ?_, ?_, ?_⟩
  · simp only [run, step, sendCommand, writes, List.append_nil, List.nil_append,
      writes_append, cstr_CMD_FMT_UPD]
  · intro v hv
    have h := processData_idle_update K
      (sendCommand
        { s0 with m_arg := [prog, addr, "update", path],
                  data_fd := { bytes := image, pos := 0, isOpen := true },
                  data_size := image.length, data_done := 0,
                  m_cmd_idx := CMD_IDX_UPD,
                  m_cmd_str := CMD_FMT_UPD image.length ++ CRLF }).1 v rfl hidle hv
    refine ⟨h.1, h.2.1, ?_⟩
    exact h.2.2.trans (first_chunk _ image rfl hS rfl rfl)
  · intro s v hcmd hrw hv
    rw [processData_success K v s hv, if_pos hcmd, if_neg (by rw [hrw]; decide)]
    simp only [writes_append, (echo_silent v s).1, List.nil_append]
    exact ⟨rfl, rfl, rfl⟩
  · intro es1 es2 h
    rw [run_append]
    have hinv := run_reset_idle K es1 _ (fun (hc : CMD_IDX_UPD = CMD_IDX_RST) =>
      absurd hc (by decide)) h
    exact run_reset K es2 _ h hinv

/-- C8, witness: an image of 100 bytes, one chunk; the first command is
`FW+UPD:100\r\n`. -/
theorem update_flow_witness :
    writes ((start specConsts (oneImage 100) ["fwupd", "AA:BB", "update", "fw.bin"]
          freshSession).2 ++
        (run specConsts [Event.descriptorWritten]
          (start specConsts (oneImage 100) ["fwupd", "AA:BB", "update", "fw.bin"]
            freshSession).1).2)
      = ["FW+UPD:100\r\n".toList] :=
  (update_flow specConsts (oneImage 100) "fwupd" "AA:BB" "fw.bin" (List.replicate 100 'x')
    freshSession rfl (by rw [List.length_replicate]; decide) rfl).1.trans (by decide)

/-- C9. Response classification is total and deterministic and follows the
table order: the loop of `processData` returns the position and the entry of
the first of `OK\r\n`, `DONE\r\n`, `FAIL\r\n`, `ERROR\r\n` that is a prefix of
the buffer and nothing when none is, so the kind it acts on is the kind the
spec assigns; at most one entry is a prefix of a given buffer. A buffer without
CR-LF is discarded: `processData` returns the session unchanged and performs
no effect. -/
theorem classification (value : QByteArray) :
    classify value = classifySpec value
    ∧ rspScan value rsp_fmt 0 =
        (if "OK\r\n".toList <+: value then
          some (0, { flag := true, fmt := "OK\r\n".toList })
        else if "DONE\r\n".toList <+: value then
          some (1, { flag := true, fmt := "DONE\r\n".toList })
        else if "FAIL\r\n".toList <+: value then
          some (2, { flag := false, fmt := "FAIL\r\n".toList })
        else if "ERROR\r\n".toList <+: value then
          some (3, { flag := false, fmt := "ERROR\r\n".toList })
        else none)
    ∧ (∀ e ∈ rsp_fmt, ∀ e2 ∈ rsp_fmt, e.fmt <+: value → e2.fmt <+: value → e = e2)
    ∧ (∀ (K : Consts) (s : FirmwareUpdater), ¬ CRLF <:+: value →
        processData K value s = (s, [])) := by
  have hx := prefix_excl value
  refine ⟨?_, rspScan_eq value, ?_, ?_⟩
  · unfold classify classifySpec
    rw [rspScan_eq]
    split_ifs <;> rfl
  · intro e he e2 he2 h h2
    simp only [rsp_fmt, List.mem_cons, List.mem_singleton, List.not_mem_nil, or_false] at he he2
    rcases he with rfl | rfl | rfl | rfl <;> rcases he2 with rfl | rfl | rfl | rfl <;>
      first
        | rfl
        | exact absurd h (hx.1 h2).1
        | exact absurd h (hx.1 h2).2
        | exact absurd h (hx.2.1 h2).1
        | exact absurd h (hx.2.1 h2).2.1
        | exact absurd h (hx.2.1 h2).2.2
        | exact absurd h (hx.2.2 h2)
        | exact absurd h2 (hx.1 h).1
        | exact absurd h2 (hx.1 h).2
        | exact absurd h2 (hx.2.1 h).1
        | exact absurd h2 (hx.2.1 h).2.1
        | exact absurd h2 (hx.2.1 h).2.2
        | exact absurd h2 (hx.2.2 h)
  · intro K s hc
    apply processData_no_crlf
    cases hb : contains value CRLF
    · rfl
    · exact absurd ((contains_iff value CRLF).1 hb) hc

/-- C10. The percentage `sendData` prints is computed in 32-bit arithmetic and
the product `data_done * 100` wraps. Image of 50000000 bytes, 42950144 bytes
sent (83887 chunks of 512): the line printed is `>> SENT:0%` although
`floor(d * 100 / S)` is 85. -/
theorem sendData_progress_overflow :
    (sendData { freshSession with data_size := 50000000, data_done := 42950144 }).2.head?
      = some (Action.cout ">> SENT:0%\r".toList)
    ∧ progress 42950144 50000000 = 0
    ∧ 42950144 * 100 / 50000000 = 85
    ∧ 42950144 = 512 * 83887 := by
  decide

end Fwupd
